import Mathlib

/-
Verification development for the OAuth2 authentication and session-management
subsystem of the backend template repository.

The TypeScript source is shallowly embedded: pure functions become Lean
functions, the PostgreSQL store becomes an explicit `Store` value threaded
through each service call, and fallible code returns `Except`.  Network
calls to the identity provider, the JWT library and the nonce source are
modelled as oracle fields of an environment record supplied per call, so
that every definition stays executable.
-/

namespace Backend

/-- Byte strings (the contents of Node `Buffer`s), one `Fin 256` per byte. -/
abbrev Bytes := List (Fin 256)

/-- Milliseconds since the Unix epoch, as returned by JavaScript `Date.now()`.
Each embedded service call receives a single `now : Time`; the source calls
`new Date()` several times inside one function body, which is collapsed to
one instant here. -/
abbrev Time := Nat

/-! ## Encryption codec (packages/shared encryption module)

The source wraps Node `crypto`'s AES-256-GCM.  Modelled from the spec: the
AES-256-GCM primitive itself is external library code, so it is modelled as
the ideal authenticated cipher the spec describes in its Encryption Codec
contract — a counter-mode keystream keyed by (key, iv) for confidentiality,
and an authentication tag that is assumed collision-free and unforgeable,
i.e. the tag is faithful exactly to the triple (key, iv, ciphertext) it was
produced from.  Base64 transport encoding of the stored columns is a
bijection and is omitted. -/

/-- Ideal authentication tag: determined by (and determining) the key, the
iv and the ciphertext it authenticates.  This is the idealisation of GCM's
128-bit tag in which forgeries and collisions do not exist. -/
structure AuthTag where
  key : Bytes
  iv : Bytes
  ct : Bytes
deriving DecidableEq, Repr

/-- Result shape of `encrypt`: `{ data, iv, tag }`. -/
structure EncryptedField where
  data : Bytes
  iv : Bytes
  tag : AuthTag
deriving DecidableEq, Repr

inductive CryptoErr where
  /-- Node `createCipheriv`/`createDecipheriv` reject a key that is not
  exactly 32 bytes for aes-256-gcm. -/
  | invalidKeyLength
  /-- Authentication-tag verification failure in `decipher.final`. -/
  | integrityError
deriving DecidableEq, Repr

/-- Equality of fallible results is decidable componentwise; this lets
witnesses evaluate service calls on concrete inputs by `decide`. -/
instance {ε α : Type} [DecidableEq ε] [DecidableEq α] : DecidableEq (Except ε α) := fun a b =>
  match a, b with
  | .ok x, .ok y =>
    if h : x = y then .isTrue (by rw [h]) else .isFalse (by intro hc; cases hc; exact h rfl)
  | .error x, .error y =>
    if h : x = y then .isTrue (by rw [h]) else .isFalse (by intro hc; cases hc; exact h rfl)
  | .ok _, .error _ => .isFalse (by intro hc; cases hc)
  | .error _, .ok _ => .isFalse (by intro hc; cases hc)

/-- One keystream byte of the modelled counter-mode cipher, a function of
the key, the iv and the byte position. -/
def keystreamByte (key iv : Bytes) (i : Nat) : Fin 256 :=
  ⟨(key.foldl (fun a b => a + b.val) 0 + iv.foldl (fun a b => a + b.val * 3) 0 + i * 7) % 256,
    Nat.mod_lt _ (by decide)⟩

/-- Counter-mode encryption of a byte sequence starting at position `i`. -/
def ctrEnc (key iv : Bytes) : Nat → Bytes → Bytes
  | _, [] => []
  | i, c :: cs => (c + keystreamByte key iv i) :: ctrEnc key iv (i + 1) cs

/-- Counter-mode decryption of a byte sequence starting at position `i`. -/
def ctrDec (key iv : Bytes) : Nat → Bytes → Bytes
  | _, [] => []
  | i, c :: cs => (c - keystreamByte key iv i) :: ctrDec key iv (i + 1) cs

/-- `encrypt(data, encryptionKey)` from the shared encryption module.  The
source draws the 12-byte iv from `crypto.randomBytes` inside the function;
the nonce source is externalised as the `iv` argument here.  A key that is
not 32 bytes makes the cipher constructor throw. -/
def encrypt (data : Bytes) (key : Bytes) (iv : Bytes) : Except CryptoErr EncryptedField :=
  if key.length = 32 then
    let ct := ctrEnc key iv 0 data
    .ok { data := ct, iv := iv, tag := { key := key, iv := iv, ct := ct } }
  else
    .error .invalidKeyLength

/-- `decrypt(data, iv, tag, encryptionKey)` from the shared encryption
module: rebuilds the decipher over (key, iv), verifies the tag, and fails
hard with an integrity error when the tag does not authenticate the triple. -/
def decrypt (data : Bytes) (iv : Bytes) (tag : AuthTag) (key : Bytes) : Except CryptoErr Bytes :=
  if key.length = 32 then
    if tag = { key := key, iv := iv, ct := data } then
      .ok (ctrDec key iv 0 data)
    else
      .error .integrityError
  else
    .error .invalidKeyLength

theorem ctrDec_ctrEnc (key iv : Bytes) (i : Nat) (data : Bytes) :
    ctrDec key iv i (ctrEnc key iv i data) = data := by
  induction data generalizing i with
  | nil => simp [ctrEnc, ctrDec]
  | cons c cs ih => simp [ctrEnc, ctrDec, ih]

/-! ## Data model (packages/db schemas)

Rows of the `users` and `sessions` tables.  Timestamps nullable in the
schema are `Option Time`.  UUID primary keys are modelled as `String`s
supplied by the environment (`defaultRandom`). -/

structure User where
  id : String
  email : String
  firstName : String
  lastName : Option String
  avatar : Option String
  providerAccountId : String
  createdAt : Option Time
  updatedAt : Option Time
  deletedAt : Option Time
deriving DecidableEq, Repr

inductive SessionStatus where
  | active
  | revoked
  | expired
deriving DecidableEq, Repr

/-- Session metadata is a free-form JSON map in the schema; its contents are
irrelevant to every claim, so it is modelled as a key/value list. -/
abbrev SessionMetadata := List (String × String)

structure Session where
  id : String
  userId : String
  status : SessionStatus
  provider : String
  providerAccessToken : Bytes
  providerAccessTokenIv : Bytes
  providerAccessTokenTag : AuthTag
  providerAccessTokenExpiresAt : Time
  providerRefreshToken : Bytes
  providerRefreshTokenIv : Bytes
  providerRefreshTokenTag : AuthTag
  providerScope : String
  providerRefreshTokenExpiresAt : Time
  providerAccountId : String
  lastAccessedAt : Time
  revokedAt : Option Time
  createdAt : Option Time
  updatedAt : Time
  deletedAt : Option Time
  expiresAt : Time
  metadata : SessionMetadata
deriving DecidableEq, Repr

/-- The transactional relational store: the two tables the auth subsystem
touches, in row order. -/
structure Store where
  users : List User
  sessions : List Session
deriving DecidableEq, Repr

/-! ## Error taxonomy

The source throws untyped `Error`s distinguished by message; each distinct
throw site (or store-level failure) gets one constructor.  `external` covers
arbitrary errors produced by a provider adapter or injected by a test. -/

inductive Err where
  | sessionNotFound
  | sessionNotActive
  | refreshTokenExpired
  | crypto (e : CryptoErr)
  | providerNotRegistered
  | missingAccessToken
  | missingRefreshToken
  | incompleteUserInfo
  | transactionRequired
  /-- PostgreSQL unique-constraint violation raised by an insert. -/
  | uniqueViolation
  /-- A row expected by `.returning()` was absent (models the TypeScript
  `undefined` dereference that would follow; unreachable in practice). -/
  | rowVanished
  /-- Fault injected below the session insert (simulated mid-transaction
  failure). -/
  | injectedFault
  | external (msg : String)
deriving DecidableEq, Repr

/-! ## UsersService (packages/db/src/services/users.service.ts) -/

/-- Insert payload for a user (`NewUser` without the defaulted columns). -/
structure NewUser where
  email : String
  firstName : String
  lastName : Option String
  avatar : Option String
  providerAccountId : String
deriving DecidableEq, Repr

/-- UsersService.findById: `where eq(usersTable.id, id)`, no soft-delete
filter. -/
def UsersService.findById (id : String) (s : Store) : Option User :=
  s.users.find? (fun u => decide (u.id = id))

/-- UsersService.findByEmail with `includeDeleted: false` (the only mode its
callers use): first user with the email whose `deletedAt` is null. -/
def UsersService.findByEmail (email : String) (s : Store) : Option User :=
  s.users.find? (fun u => decide (u.email = email ∧ u.deletedAt = none))

/-- The lookup predicate of findByProviderAccountId: matching
provider-account-id among non-deleted rows. -/
def pidQual (pid : String) : User → Bool :=
  fun v => decide (v.providerAccountId = pid ∧ v.deletedAt = none)

/-- UsersService.findByProviderAccountId with `includeDeleted: false`. -/
def UsersService.findByProviderAccountId (pid : String) (s : Store) : Option User :=
  s.users.find? (pidQual pid)

/-- UsersService.create: INSERT into `users`.  The store enforces the
schema's unique indexes on `email` and `provider_account_id`; both indexes
are total (they cover soft-deleted rows).  `created_at` has `defaultNow()`,
`updated_at` has no default. -/
def UsersService.create (freshId : String) (now : Time) (p : NewUser) (s : Store) :
    Except Err (User × Store) :=
  if s.users.any (fun u => decide (u.email = p.email ∨ u.providerAccountId = p.providerAccountId)) then
    .error .uniqueViolation
  else
    let u : User :=
      { id := freshId, email := p.email, firstName := p.firstName, lastName := p.lastName,
        avatar := p.avatar, providerAccountId := p.providerAccountId,
        createdAt := some now, updatedAt := none, deletedAt := none }
    .ok (u, { s with users := s.users ++ [u] })

/-- The column assignments of UsersService.updateById for the payload the
upsert passes (profile fields plus provider account id), with the service's
own `updatedAt: new Date()`. -/
def applyUserUpdate (p : NewUser) (now : Time) (u : User) : User :=
  { u with email := p.email, firstName := p.firstName, lastName := p.lastName,
           avatar := p.avatar, providerAccountId := p.providerAccountId,
           updatedAt := some now }

/-- UsersService.updateById: UPDATE ... WHERE id = ..., then `.returning()`
destructured to its first row (`none` when no row matched). -/
def UsersService.updateById (id : String) (p : NewUser) (now : Time) (s : Store) :
    Option User × Store :=
  ((s.users.map (fun u => if u.id = id then applyUserUpdate p now u else u)).find?
      (fun u => decide (u.id = id)),
    { s with users := s.users.map (fun u => if u.id = id then applyUserUpdate p now u else u) })

/-- UsersService.upsertByProviderAccountId: requires a transaction handle,
then looks up by provider account id, falls back to email, and creates only
when both lookups miss. -/
def UsersService.upsertByProviderAccountId (hasTx : Bool) (freshId : String) (now : Time)
    (p : NewUser) (s : Store) : Except Err (User × Store) :=
  if !hasTx then
    .error .transactionRequired
  else
    match UsersService.findByProviderAccountId p.providerAccountId s with
    | some u =>
      match UsersService.updateById u.id p now s with
      | (some u', s') => .ok (u', s')
      | (none, _) => .error .rowVanished
    | none =>
      match UsersService.findByEmail p.email s with
      | some uByEmail =>
        match UsersService.updateById uByEmail.id p now s with
        | (some u', s') => .ok (u', s')
        | (none, _) => .error .rowVanished
      | none => UsersService.create freshId now p s

/-! ## SessionService (packages/db/src/services/session.service.ts) -/

/-- Insert payload for a session (the exact field set the callback
transaction passes to SessionService.create). -/
structure NewSession where
  userId : String
  status : SessionStatus
  provider : String
  providerAccessToken : Bytes
  providerAccessTokenIv : Bytes
  providerAccessTokenTag : AuthTag
  providerAccessTokenExpiresAt : Time
  providerRefreshToken : Bytes
  providerRefreshTokenIv : Bytes
  providerRefreshTokenTag : AuthTag
  providerScope : String
  providerRefreshTokenExpiresAt : Time
  providerAccountId : String
  expiresAt : Time
  lastAccessedAt : Time
  metadata : SessionMetadata
deriving DecidableEq, Repr

/-- SessionService.findById: `where eq(sessionsTable.id, id)`. -/
def SessionService.findById (id : String) (s : Store) : Option Session :=
  s.sessions.find? (fun t => decide (t.id = id))

/-- SessionService.create: INSERT into `sessions`.  The store enforces the
schema's unique index on `provider_refresh_token`; the `fault` flag injects
the simulated mid-transaction insert failure of the atomicity property. -/
def SessionService.create (freshId : String) (now : Time) (fault : Bool) (p : NewSession)
    (s : Store) : Except Err (Session × Store) :=
  if fault then
    .error .injectedFault
  else if s.sessions.any (fun t => decide (t.providerRefreshToken = p.providerRefreshToken)) then
    .error .uniqueViolation
  else
    let t : Session :=
      { id := freshId, userId := p.userId, status := p.status, provider := p.provider,
        providerAccessToken := p.providerAccessToken,
        providerAccessTokenIv := p.providerAccessTokenIv,
        providerAccessTokenTag := p.providerAccessTokenTag,
        providerAccessTokenExpiresAt := p.providerAccessTokenExpiresAt,
        providerRefreshToken := p.providerRefreshToken,
        providerRefreshTokenIv := p.providerRefreshTokenIv,
        providerRefreshTokenTag := p.providerRefreshTokenTag,
        providerScope := p.providerScope,
        providerRefreshTokenExpiresAt := p.providerRefreshTokenExpiresAt,
        providerAccountId := p.providerAccountId,
        lastAccessedAt := p.lastAccessedAt, revokedAt := none,
        createdAt := some now, updatedAt := now, deletedAt := none,
        expiresAt := p.expiresAt, metadata := p.metadata }
    .ok (t, { s with sessions := s.sessions ++ [t] })

/-- Update payload for a session (`Partial<NewSession>`): absent fields stay
untouched.  `revokedAt` is doubly optional because the column itself is
nullable. -/
structure SessionUpdate where
  status : Option SessionStatus := none
  revokedAt : Option (Option Time) := none
  providerAccessToken : Option Bytes := none
  providerAccessTokenIv : Option Bytes := none
  providerAccessTokenTag : Option AuthTag := none
  providerAccessTokenExpiresAt : Option Time := none
  providerRefreshToken : Option Bytes := none
  providerRefreshTokenIv : Option Bytes := none
  providerRefreshTokenTag : Option AuthTag := none
  providerRefreshTokenExpiresAt : Option Time := none
  providerScope : Option String := none
  lastAccessedAt : Option Time := none
deriving DecidableEq, Repr

/-- The column assignments of SessionService.updateById, with the service's
own `updatedAt: new Date()`. -/
def applySessionUpdate (p : SessionUpdate) (now : Time) (t : Session) : Session :=
  { t with
    status := p.status.getD t.status,
    revokedAt := p.revokedAt.getD t.revokedAt,
    providerAccessToken := p.providerAccessToken.getD t.providerAccessToken,
    providerAccessTokenIv := p.providerAccessTokenIv.getD t.providerAccessTokenIv,
    providerAccessTokenTag := p.providerAccessTokenTag.getD t.providerAccessTokenTag,
    providerAccessTokenExpiresAt := p.providerAccessTokenExpiresAt.getD t.providerAccessTokenExpiresAt,
    providerRefreshToken := p.providerRefreshToken.getD t.providerRefreshToken,
    providerRefreshTokenIv := p.providerRefreshTokenIv.getD t.providerRefreshTokenIv,
    providerRefreshTokenTag := p.providerRefreshTokenTag.getD t.providerRefreshTokenTag,
    providerRefreshTokenExpiresAt := p.providerRefreshTokenExpiresAt.getD t.providerRefreshTokenExpiresAt,
    providerScope := p.providerScope.getD t.providerScope,
    lastAccessedAt := p.lastAccessedAt.getD t.lastAccessedAt,
    updatedAt := now }

/-- SessionService.updateById: UPDATE ... WHERE id = ..., then the first row
of `.returning()`. -/
def SessionService.updateById (id : String) (p : SessionUpdate) (now : Time) (s : Store) :
    Option Session × Store :=
  ((s.sessions.map (fun t => if t.id = id then applySessionUpdate p now t else t)).find?
      (fun t => decide (t.id = id)),
    { s with
      sessions := s.sessions.map (fun t => if t.id = id then applySessionUpdate p now t else t) })

/-! ## JavaScript-semantics helpers -/

/-- JavaScript truthiness of an optional string: `undefined` and the empty
string are falsy (`a || b` takes `b` for both). -/
def jsTruthy : Option String → Option String
  | some s => if s = "" then none else some s
  | none => none

/-- JavaScript `a || d` for an optional number, where `0` is falsy. -/
def jsOrNat : Option Nat → Nat → Nat
  | some n, d => if n = 0 then d else n
  | none, d => d

/-- JavaScript `String.prototype.replace` with a string pattern: only the
first occurrence is replaced. -/
def replaceOnce (s pat rep : String) : String :=
  match s.splitOn pat with
  | [] => s
  | [_] => s
  | p :: ps => p ++ rep ++ String.intercalate pat ps

/-- UTF-8 byte encoding of a plaintext string handed to the codec; the exact
byte map is irrelevant to every claim, only that it is a fixed function. -/
def strToBytes (s : String) : Bytes :=
  s.data.map (fun c => Fin.ofNat c.toNat)

/-! ## Provider adapter responses and the per-call environment -/

/-- Token endpoint response of a provider adapter (exchange or refresh).
Absent fields are `none`; the empty string models a present-but-empty
(falsy) `access_token`. -/
structure TokenResponse where
  access_token : String
  refresh_token : Option String
  expires_in : Option Nat
  scope : Option String
deriving DecidableEq, Repr

/-- User-info endpoint response of a provider adapter. -/
structure UserInfo where
  id : String
  email : String
  given_name : Option String
  family_name : Option String
  name : Option String
  picture : Option String
deriving DecidableEq, Repr

/-- Per-call environment: the configuration key, the provider registry, the
oracles for the provider's three network endpoints, the nonce source for the
two encryptions a call performs, the UUID source for inserts, and the fault
switch for the session insert. -/
structure OAuthEnv where
  encryptionKey : Bytes
  registered : String → Bool
  exchangeResult : Except Err TokenResponse
  userInfoResult : Except Err UserInfo
  refreshResult : Except Err TokenResponse
  ivAccess : Bytes
  ivRefresh : Bytes
  freshUserId : String
  freshSessionId : String
  sessionInsertFault : Bool
  defaultScopes : List String

/-! ## OAuth orchestrator (OAuthService.handleCallback and
executeOAuthCallbackTransaction) -/

structure OAuthCallbackResult where
  user : User
  session : Session
deriving DecidableEq, Repr

/-- Name-resolution policy: `given_name || name?.split(" ")[0] || "User"`. -/
def firstNameOf (ui : UserInfo) : String :=
  ((jsTruthy ui.given_name).orElse (fun _ =>
    match ui.name with
    | none => none
    | some n => jsTruthy (some ((n.splitOn " ").headD "")))).getD "User"

/-- Name-resolution policy:
`family_name || name?.split(" ").slice(1).join(" ") || ""`. -/
def lastNameOf (ui : UserInfo) : String :=
  ((jsTruthy ui.family_name).orElse (fun _ =>
    match ui.name with
    | none => none
    | some n => jsTruthy (some (String.intercalate " " ((n.splitOn " ").drop 1))))).getD ""

/-- The upsert payload the callback transaction builds from the provider's
user info. -/
def callbackUserPayload (ui : UserInfo) : NewUser :=
  { email := ui.email, firstName := firstNameOf ui, lastName := some (lastNameOf ui),
    avatar := jsTruthy ui.picture, providerAccountId := ui.id }

/-- The body of `executeOAuthCallbackTransaction`: user upsert, independent
encryption of both provider tokens, expiry computation (access: reported
`expires_in` with a 3600 s default; refresh and session: fixed 90 days), and
the session insert, all against the transaction handle.  The caller wraps it
in `dbTransaction`. -/
def executeOAuthCallbackTransaction (env : OAuthEnv) (now : Time) (provider : String)
    (tok : TokenResponse) (refreshTok : String) (ui : UserInfo) (st : Store) :
    Except Err OAuthCallbackResult × Store :=
  match UsersService.upsertByProviderAccountId true env.freshUserId now (callbackUserPayload ui) st with
  | .error e => (.error e, st)
  | .ok (user, st1) =>
    match encrypt (strToBytes tok.access_token) env.encryptionKey env.ivAccess with
    | .error e => (.error (.crypto e), st1)
    | .ok encA =>
      match encrypt (strToBytes refreshTok) env.encryptionKey env.ivRefresh with
      | .error e => (.error (.crypto e), st1)
      | .ok encR =>
        let accessTokenExpiresAt := now + (jsOrNat tok.expires_in 3600) * 1000
        let refreshTokenExpiresIn := 90 * 24 * 60 * 60
        let refreshTokenExpiresAt := now + refreshTokenExpiresIn * 1000
        let sessionExpiresAt := now + refreshTokenExpiresIn * 1000
        let newSession : NewSession :=
          { userId := user.id, status := .active, provider := provider,
            providerAccessToken := encA.data, providerAccessTokenIv := encA.iv,
            providerAccessTokenTag := encA.tag,
            providerAccessTokenExpiresAt := accessTokenExpiresAt,
            providerRefreshToken := encR.data, providerRefreshTokenIv := encR.iv,
            providerRefreshTokenTag := encR.tag,
            providerScope := (jsTruthy tok.scope).getD (String.intercalate " " env.defaultScopes),
            providerRefreshTokenExpiresAt := refreshTokenExpiresAt,
            providerAccountId := user.providerAccountId,
            expiresAt := sessionExpiresAt, lastAccessedAt := now, metadata := [] }
        match SessionService.create env.freshSessionId now env.sessionInsertFault newSession st1 with
        | .error e => (.error e, st1)
        | .ok (session, st2) => (.ok { user := user, session := session }, st2)

/-- `db.transaction`: the body runs against the store; a thrown error rolls
every write of the body back. -/
def dbTransaction (body : Store → Except Err α × Store) (st : Store) :
    Except Err α × Store :=
  match body st with
  | (.ok a, st') => (.ok a, st')
  | (.error e, _) => (.error e, st)

/-- OAuthService.handleCallback without a caller-supplied transaction (the
mode its HTTP handler uses): provider lookup, code exchange, the two falsy
token checks, user-info fetch and field validation, then the persistence
transaction.  The surrounding catch logs and rethrows, leaving results
untouched. -/
def handleCallback (env : OAuthEnv) (now : Time) (provider : String) (st : Store) :
    Except Err OAuthCallbackResult × Store :=
  if !env.registered provider then
    (.error .providerNotRegistered, st)
  else
    match env.exchangeResult with
    | .error e => (.error e, st)
    | .ok tok =>
      if tok.access_token = "" then
        (.error .missingAccessToken, st)
      else
        match jsTruthy tok.refresh_token with
        | none => (.error .missingRefreshToken, st)
        | some refreshTok =>
          match env.userInfoResult with
          | .error e => (.error e, st)
          | .ok ui =>
            if ui.id = "" ∨ ui.email = "" then
              (.error .incompleteUserInfo, st)
            else
              dbTransaction (executeOAuthCallbackTransaction env now provider tok refreshTok ui) st

/-! ## Token lifecycle manager
(apps/api/src/modules/auth/services/token.service.ts) -/

/-- TokenService.isAccessTokenExpired: true when the expiry is within five
minutes of now. -/
def isAccessTokenExpired (now : Time) (expiresAt : Time) : Bool :=
  expiresAt ≤ now + 5 * 60 * 1000

/-- TokenService.isRefreshTokenExpired. -/
def isRefreshTokenExpired (now : Time) (expiresAt : Time) : Bool :=
  expiresAt ≤ now

structure TokenRefreshResult where
  accessToken : String
  accessTokenExpiresAt : Time
  refreshToken : Option String
  refreshTokenExpiresAt : Option Time
deriving DecidableEq, Repr

/-- The try-block of TokenService.refreshAccessToken: decrypt the stored
refresh token, look the adapter up, call its refresh endpoint, re-encrypt
and persist the rotated tokens.  Every error is rethrown to the enclosing
catch. -/
def refreshAttempt (env : OAuthEnv) (now : Time) (sessionId : String) (session : Session)
    (st : Store) : Except Err TokenRefreshResult × Store :=
  match decrypt session.providerRefreshToken session.providerRefreshTokenIv
      session.providerRefreshTokenTag env.encryptionKey with
  | .error e => (.error (.crypto e), st)
  | .ok _refreshToken =>
    if !env.registered session.provider then
      (.error .providerNotRegistered, st)
    else
      match env.refreshResult with
      | .error e => (.error e, st)
      | .ok tok =>
        if tok.access_token = "" then
          (.error .missingAccessToken, st)
        else
          match encrypt (strToBytes tok.access_token) env.encryptionKey env.ivAccess with
          | .error e => (.error (.crypto e), st)
          | .ok encA =>
            let accessTokenExpiresAt := now + (jsOrNat tok.expires_in 3600) * 1000
            let basePayload : SessionUpdate :=
              { providerAccessToken := some encA.data,
                providerAccessTokenIv := some encA.iv,
                providerAccessTokenTag := some encA.tag,
                providerAccessTokenExpiresAt := some accessTokenExpiresAt,
                lastAccessedAt := some now,
                providerScope := jsTruthy tok.scope }
            match jsTruthy tok.refresh_token with
            | some newRefreshTok =>
              match encrypt (strToBytes newRefreshTok) env.encryptionKey env.ivRefresh with
              | .error e => (.error (.crypto e), st)
              | .ok encR =>
                let refreshTokenExpiresAt :=
                  now + (jsOrNat tok.expires_in (90 * 24 * 60 * 60)) * 1000
                let payload : SessionUpdate :=
                  { basePayload with
                    providerRefreshToken := some encR.data,
                    providerRefreshTokenIv := some encR.iv,
                    providerRefreshTokenTag := some encR.tag,
                    providerRefreshTokenExpiresAt := some refreshTokenExpiresAt }
                let (_, st') := SessionService.updateById sessionId payload now st
                (.ok { accessToken := tok.access_token,
                       accessTokenExpiresAt := accessTokenExpiresAt,
                       refreshToken := tok.refresh_token,
                       refreshTokenExpiresAt :=
                         some (now + (jsOrNat tok.expires_in (90 * 24 * 60 * 60)) * 1000) }, st')
            | none =>
              let (_, st') := SessionService.updateById sessionId basePayload now st
              (.ok { accessToken := tok.access_token,
                     accessTokenExpiresAt := accessTokenExpiresAt,
                     refreshToken := tok.refresh_token,
                     refreshTokenExpiresAt := none }, st')

/-- TokenService.refreshAccessToken: re-fetch and re-validate the session,
mark it expired (and fail terminally) when the refresh token's expiry has
passed, and otherwise run the refresh attempt; any exception from it marks
the session revoked with a revocation timestamp and is rethrown. -/
def refreshAccessToken (env : OAuthEnv) (now : Time) (sessionId : String) (st : Store) :
    Except Err TokenRefreshResult × Store :=
  match SessionService.findById sessionId st with
  | none => (.error .sessionNotFound, st)
  | some session =>
    if session.status ≠ .active then
      (.error .sessionNotActive, st)
    else if isRefreshTokenExpired now session.providerRefreshTokenExpiresAt then
      let (_, st') := SessionService.updateById sessionId { status := some .expired } now st
      (.error .refreshTokenExpired, st')
    else
      match refreshAttempt env now sessionId session st with
      | (.ok r, st') => (.ok r, st')
      | (.error e, st') =>
        let (_, st'') := SessionService.updateById sessionId
          { status := some .revoked, revokedAt := some (some now) } now st'
        (.error e, st'')

/-- TokenService.getValidAccessToken: decrypt and return the cached access
token when it is not within the expiry buffer (no store write), otherwise
delegate to the refresh path. -/
def getValidAccessToken (env : OAuthEnv) (now : Time) (sessionId : String) (st : Store) :
    Except Err Bytes × Store :=
  match SessionService.findById sessionId st with
  | none => (.error .sessionNotFound, st)
  | some session =>
    if session.status ≠ .active then
      (.error .sessionNotActive, st)
    else if !isAccessTokenExpired now session.providerAccessTokenExpiresAt then
      match decrypt session.providerAccessToken session.providerAccessTokenIv
          session.providerAccessTokenTag env.encryptionKey with
      | .ok p => (.ok p, st)
      | .error e => (.error (.crypto e), st)
    else
      match refreshAccessToken env now sessionId st with
      | (.ok r, st') => (.ok (strToBytes r.accessToken), st')
      | (.error e, st') => (.error e, st')

/-! ## Call sequences over the token lifecycle manager -/

/-- One call to the token lifecycle manager, with its own environment,
instant and target session. -/
inductive TokenOp where
  | getValid (env : OAuthEnv) (now : Time) (sessionId : String)
  | refresh (env : OAuthEnv) (now : Time) (sessionId : String)

def runTokenOp (op : TokenOp) (st : Store) : Store :=
  match op with
  | .getValid env now sid => (getValidAccessToken env now sid st).2
  | .refresh env now sid => (refreshAccessToken env now sid st).2

def runTokenOps (ops : List TokenOp) (st : Store) : Store :=
  ops.foldl (fun s op => runTokenOp op s) st

/-! ## Session-resolution middleware
(apps/api/src/middlewares/get-user.middleware.ts, both variants)

The JWT library is external; its `verifyJwt` is the oracle `verify`, with
`none` for a verification throw (which the middleware's outer catch maps to
a 500 response). -/

structure Request where
  cookies : List (String × String)
  authorizationHeader : Option String
deriving DecidableEq, Repr

def getCookie (name : String) (r : Request) : Option String :=
  (r.cookies.find? (fun c => decide (c.fst = name))).map Prod.snd

structure JwtPayload where
  userId : String
  sessionId : String
deriving DecidableEq, Repr

/-- Outcome of a middleware run: the request proceeds (with whatever got
attached to the context), or it is rejected with 401, or the outer catch
answers 500. -/
inductive MwOutcome where
  | next (user : Option User) (session : Option Session)
  | unauthorized
  | serverError
deriving DecidableEq, Repr

/-- First middleware variant: cookie `access_token` or the Authorization
header with `Bearer ` stripped; a missing, revoked (`revokedAt` set) or
past-overall-expiry session, or a missing user, rejects the request with
401. -/
def getUserMiddlewareV1 (verify : String → Option JwtPayload) (now : Time) (req : Request)
    (st : Store) : MwOutcome :=
  match jsTruthy ((jsTruthy (getCookie "access_token" req)).orElse (fun _ =>
      req.authorizationHeader.map (fun h => replaceOnce h "Bearer " ""))) with
  | none => .next none none
  | some token =>
    match verify token with
    | none => .serverError
    | some p =>
      if p.userId = "" ∨ p.sessionId = "" then .unauthorized
      else
        match SessionService.findById p.sessionId st with
        | none => .unauthorized
        | some session =>
          if session.revokedAt ≠ none ∨ session.expiresAt < now then .unauthorized
          else
            match UsersService.findById p.userId st with
            | none => .unauthorized
            | some user => .next (some user) (some session)

/-- Second middleware variant: cookie `accessToken` or the trimmed bearer
token; session and user are attached whenever the lookups return rows, with
no status, revocation or expiry check, and the request always proceeds. -/
def getUserMiddlewareV2 (verify : String → Option JwtPayload) (req : Request) (st : Store) :
    MwOutcome :=
  let bearerToken := req.authorizationHeader.map (fun h => (replaceOnce h "Bearer " "").trim)
  let accessToken := (jsTruthy (getCookie "accessToken" req)).orElse (fun _ =>
    match bearerToken with
    | some b => if b ≠ "" ∧ b ≠ "Bearer" then some b else none
    | none => none)
  match jsTruthy accessToken with
  | none => .next none none
  | some token =>
    match verify token with
    | none => .serverError
    | some p =>
      if p.userId = "" ∨ p.sessionId = "" then .unauthorized
      else .next (UsersService.findById p.userId st) (SessionService.findById p.sessionId st)

/-! ## OAuth callback HTTP handler
(apps/api/src/modules/auth/handlers/get-oauth-callback.handler.ts)

The state-token verification oracle returns `none` when `verifyJwt` throws,
and otherwise the decoded payload's optional `state` field.  `signA` and
`signR` are the oracles for the two server JWTs the handler issues. -/

structure CallbackQuery where
  code : Option String
  error : Option String
  error_description : Option String
  state : Option String
deriving DecidableEq, Repr

inductive HandlerResult where
  /-- 200 with the signed server access and refresh bearer tokens. -/
  | success (accessToken refreshToken : String)
  | badRequest (msg : String)
  /-- 500 "Internal Server Error" from the handler's final catch. -/
  | internalError
deriving DecidableEq, Repr

def getOauthCallbackHandler (env : OAuthEnv) (verifyState : String → Option (Option String))
    (signA signR : JwtPayload → String) (now : Time) (provider : String) (q : CallbackQuery)
    (st : Store) : HandlerResult × Store :=
  if !env.registered provider then
    (.badRequest "OAuth provider not supported", st)
  else
    match jsTruthy q.error with
    | some _ => (.badRequest "OAuth authorization failed", st)
    | none =>
      match jsTruthy q.code with
      | none => (.badRequest "Authorization code is required", st)
      | some _code =>
        match jsTruthy q.state with
        | none => (.badRequest "State parameter is required for security", st)
        | some state =>
          match verifyState state with
          | none => (.badRequest "State token is invalid or expired. Please try again.", st)
          | some decodedState =>
            match jsTruthy decodedState with
            | none => (.badRequest "Invalid state parameter", st)
            | some _ =>
              match handleCallback env now provider st with
              | (.ok r, st') =>
                (.success (signA { userId := r.user.id, sessionId := r.session.id })
                  (signR { userId := r.user.id, sessionId := r.session.id }), st')
              | (.error _, st') => (.internalError, st')

/-! ## Generic lemmas about keyed row lists

An UPDATE touches exactly the rows whose key matches; these lemmas relate
`find?` before and after the corresponding `map`. -/

/-- Updating rows keyed `k2` leaves a lookup for a different key `k`
unchanged. -/
theorem find?_map_ne {α : Type} (l : List α) (idOf : α → String) (k k2 : String) (f : α → α)
    (hf : ∀ a, idOf (f a) = idOf a) (h : k ≠ k2) :
    (l.map (fun a => if idOf a = k2 then f a else a)).find? (fun a => decide (idOf a = k))
      = l.find? (fun a => decide (idOf a = k)) := by
  induction l with
  | nil => rfl
  | cons a l ih =>
    simp only [List.map_cons, List.find?]
    by_cases ha : idOf a = k2
    · simp [ha, hf, Ne.symm h, ih]
    · by_cases hk : idOf a = k
      · simp [ha, hk, h]
      · simp [ha, hk, ih]

/-- Updating rows keyed `k` rewrites the row a lookup for `k` finds. -/
theorem find?_map_self {α : Type} (l : List α) (idOf : α → String) (k : String) (a0 : α)
    (f : α → α) (hf : ∀ a, idOf (f a) = idOf a)
    (h : l.find? (fun a => decide (idOf a = k)) = some a0) :
    (l.map (fun a => if idOf a = k then f a else a)).find? (fun a => decide (idOf a = k))
      = some (f a0) := by
  induction l with
  | nil => simp [List.find?] at h
  | cons a l ih =>
    simp only [List.find?] at h
    simp only [List.map_cons, List.find?]
    by_cases hk : idOf a = k
    · simp only [hk, decide_True] at h
      cases h
      simp [hk, hf]
    · simp only [hk, decide_False] at h
      simp [hk, ih h]

/-- If every row of `l` that satisfies `q` carries key `k` and some row
satisfies `q`, then the lookup by `q` yields a row with key `k`. -/
theorem find?_eq_some_key_of_all {α : Type} (l : List α) (q : α → Bool) (idOf : α → String)
    (k : String) (hall : ∀ a ∈ l, q a = true → idOf a = k) (hex : ∃ a ∈ l, q a = true) :
    ∃ b, l.find? q = some b ∧ idOf b = k := by
  have hs : (l.find? q).isSome := List.find?_isSome.mpr hex
  obtain ⟨b, hb⟩ := Option.isSome_iff_exists.mp hs
  exact ⟨b, hb, hall b (List.mem_of_find?_eq_some hb) (List.find?_some hb)⟩

/-- Updating the rows that share the key of the first `q`-row keeps the
first `q`-row of the result at that same key, provided the update keeps
keys and keeps the found row satisfying `q`. -/
theorem find?_map_found {α : Type} (l : List α) (q : α → Bool) (idOf : α → String) (f : α → α)
    (a0 : α) (h : l.find? q = some a0) (hf : ∀ a, idOf (f a) = idOf a)
    (hq0 : q (f a0) = true) :
    ∃ b, (l.map (fun a => if idOf a = idOf a0 then f a else a)).find? q = some b ∧
      idOf b = idOf a0 := by
  induction l with
  | nil => simp [List.find?] at h
  | cons a l ih =>
    simp only [List.find?] at h
    simp only [List.map_cons, List.find?]
    by_cases hqa : q a = true
    · rw [hqa] at h
      cases h
      refine ⟨f a0, ?_, hf a0⟩
      simp [hq0]
    · rw [Bool.not_eq_true] at hqa
      rw [hqa] at h
      by_cases hid : idOf a = idOf a0
      · by_cases hqf : q (f a) = true
        · exact ⟨f a, by simp [hid, hqf], by rw [hf]; exact hid⟩
        · obtain ⟨b, hb, hbid⟩ := ih h
          rw [Bool.not_eq_true] at hqf
          exact ⟨b, by simp [hid, hqf, hb], hbid⟩
      · obtain ⟨b, hb, hbid⟩ := ih h
        exact ⟨b, by simp [hid, hqa, hb], hbid⟩

/-- Whether a fallible computation succeeded. -/
def isOkE {ε α : Type} : Except ε α → Bool
  | .ok _ => true
  | .error _ => false

/-! ## Claim C6 — encryption round-trip and tamper rejection -/

/-- C6: for every plaintext and valid 32-byte key, decrypting the
{ciphertext, iv, tag} triple produced by encrypt with the same key returns
the plaintext; and tampering with the ciphertext, iv or tag, or decrypting
under a different key, yields an integrity error instead of any
plaintext. -/
theorem claim_C6_encrypt_decrypt (p k iv : Bytes) (hk : k.length = 32) :
    ∃ e, encrypt p k iv = .ok e ∧
      decrypt e.data e.iv e.tag k = .ok p ∧
      (∀ c, c ≠ e.data → decrypt c e.iv e.tag k = .error .integrityError) ∧
      (∀ iv2, iv2 ≠ e.iv → decrypt e.data iv2 e.tag k = .error .integrityError) ∧
      (∀ t, t ≠ e.tag → decrypt e.data e.iv t k = .error .integrityError) ∧
      (∀ k2, k2.length = 32 → k2 ≠ k → decrypt e.data e.iv e.tag k2 = .error .integrityError) := by
  refine ⟨{ data := ctrEnc k iv 0 p, iv := iv, tag := { key := k, iv := iv, ct := ctrEnc k iv 0 p } },
    ?_, ?_, ?_, ?_, ?_, ?_⟩
  · simp [encrypt, hk]
  · simp [decrypt, hk, ctrDec_ctrEnc]
  · intro c hc
    simp only at hc
    simp [decrypt, hk, AuthTag.mk.injEq, Ne.symm hc]
  · intro iv2 hiv
    simp only at hiv
    simp [decrypt, hk, AuthTag.mk.injEq, Ne.symm hiv]
  · intro t ht
    simp only at ht
    simp [decrypt, hk, fun h : t = { key := k, iv := iv, ct := ctrEnc k iv 0 p } => ht h]
  · intro k2 hk2 hne
    simp [decrypt, hk2, AuthTag.mk.injEq, Ne.symm hne]

/-- C6 witness at a concrete plaintext, key, iv and second key. -/
theorem claim_C6_witness :
    ∃ e, encrypt [(3 : Fin 256), 250] (List.replicate 32 (7 : Fin 256)) [(1 : Fin 256)] = .ok e ∧
      decrypt e.data e.iv e.tag (List.replicate 32 (7 : Fin 256)) = .ok [(3 : Fin 256), 250] ∧
      decrypt e.data e.iv e.tag (List.replicate 32 (9 : Fin 256)) = .error .integrityError := by
  obtain ⟨e, h1, h2, _, _, _, h6⟩ :=
    claim_C6_encrypt_decrypt [(3 : Fin 256), 250] (List.replicate 32 (7 : Fin 256))
      [(1 : Fin 256)] (by decide)
  exact ⟨e, h1, h2, h6 (List.replicate 32 (9 : Fin 256)) (by decide) (by decide)⟩

/-! ## Claim C10 — fresh access token is a pure read -/

/-- C10: for every active session whose access-token expiry is strictly more
than five minutes in the future, getValidAccessToken leaves the store
completely unchanged (no write at all, in particular lastAccessedAt) and
returns exactly the decryption of the stored access token. -/
theorem claim_C10_getValidAccessToken_pure_read (env : OAuthEnv) (now : Time) (sid : String)
    (st : Store) (s : Session) (hfind : SessionService.findById sid st = some s)
    (hactive : s.status = .active)
    (hfresh : now + 5 * 60 * 1000 < s.providerAccessTokenExpiresAt) :
    (getValidAccessToken env now sid st).2 = st ∧
    (∀ p, decrypt s.providerAccessToken s.providerAccessTokenIv s.providerAccessTokenTag
        env.encryptionKey = .ok p → (getValidAccessToken env now sid st).1 = .ok p) := by
  have hexp : isAccessTokenExpired now s.providerAccessTokenExpiresAt = false := by
    simp [isAccessTokenExpired]
    simpa using hfresh
  unfold getValidAccessToken
  rw [hfind]
  simp only [hactive, hexp, Bool.not_false, if_true]
  constructor
  · simp only [ne_eq, not_true_eq_false, if_false, reduceIte]
    split <;> rfl
  · intro p hp
    simp only [ne_eq, not_true_eq_false, if_false, reduceIte, hp]

/-! ## Concrete sample data, used by the witnesses -/

def zeroKey : Bytes := List.replicate 32 0

/-- A stored tag that authenticates the given ciphertext and iv under the
sample key (so decryption of the sample fields succeeds). -/
def sampleTag (data iv : Bytes) : AuthTag :=
  { key := zeroKey, iv := iv, ct := data }

def mkSession (status : SessionStatus) (accessExp refreshExp overallExp : Time)
    (revokedAt : Option Time) : Session :=
  { id := "s1", userId := "u1", status := status, provider := "google",
    providerAccessToken := [10, 20], providerAccessTokenIv := [3],
    providerAccessTokenTag := sampleTag [10, 20] [3],
    providerAccessTokenExpiresAt := accessExp,
    providerRefreshToken := [30, 40], providerRefreshTokenIv := [4],
    providerRefreshTokenTag := sampleTag [30, 40] [4],
    providerScope := "email", providerRefreshTokenExpiresAt := refreshExp,
    providerAccountId := "g-123", lastAccessedAt := 0, revokedAt := revokedAt,
    createdAt := some 0, updatedAt := 0, deletedAt := none, expiresAt := overallExp,
    metadata := [] }

def sampleExchangeTok : TokenResponse :=
  { access_token := "at1", refresh_token := some "rt1", expires_in := some 3600,
    scope := some "email profile" }

def sampleRefreshTok : TokenResponse :=
  { access_token := "at2", refresh_token := some "rt2", expires_in := some 3600, scope := none }

def sampleUserInfo : UserInfo :=
  { id := "g-123", email := "a@x.com", given_name := some "A", family_name := none,
    name := none, picture := none }

def baseEnv : OAuthEnv :=
  { encryptionKey := zeroKey, registered := fun _ => true,
    exchangeResult := .ok sampleExchangeTok,
    userInfoResult := .ok sampleUserInfo,
    refreshResult := .ok sampleRefreshTok,
    ivAccess := [8], ivRefresh := [9], freshUserId := "u1", freshSessionId := "s1",
    sessionInsertFault := false, defaultScopes := ["openid", "email"] }

/-- C10 witness: a concrete active session whose access token expires far in
the future is served from the store without any write. -/
theorem claim_C10_witness :
    (getValidAccessToken baseEnv 0 "s1"
        { users := [], sessions := [mkSession .active 1000000000 1000000000 1000000000 none] }).2
      = { users := [], sessions := [mkSession .active 1000000000 1000000000 1000000000 none] } ∧
    (getValidAccessToken baseEnv 0 "s1"
        { users := [], sessions := [mkSession .active 1000000000 1000000000 1000000000 none] }).1
      = .ok (ctrDec zeroKey [3] 0 [10, 20]) := by
  have h := claim_C10_getValidAccessToken_pure_read baseEnv 0 "s1"
    { users := [], sessions := [mkSession .active 1000000000 1000000000 1000000000 none] }
    (mkSession .active 1000000000 1000000000 1000000000 none) (by decide) (by decide) (by decide)
  exact ⟨h.1, h.2 (ctrDec zeroKey [3] 0 [10, 20]) (by decide)⟩

/-! ## Claim C5 — expired refresh token: terminal expiry, no provider call -/

/-- C5: for every active session whose refresh token is expired at call
time, refreshAccessToken marks the session expired, fails with the
refresh-token-expired error, and its entire result is independent of the
provider environment (no network call is made). -/
theorem claim_C5_refresh_token_expired (env : OAuthEnv) (now : Time) (sid : String) (st : Store)
    (s : Session) (hfind : SessionService.findById sid st = some s)
    (hactive : s.status = .active)
    (hexp : isRefreshTokenExpired now s.providerRefreshTokenExpiresAt = true) :
    (refreshAccessToken env now sid st).1 = .error .refreshTokenExpired ∧
    (∃ s2, SessionService.findById sid (refreshAccessToken env now sid st).2 = some s2 ∧
      s2.status = .expired) ∧
    (∀ env2, refreshAccessToken env2 now sid st = refreshAccessToken env now sid st) := by
  have hshape : ∀ envx : OAuthEnv, refreshAccessToken envx now sid st =
      (.error .refreshTokenExpired,
        (SessionService.updateById sid { status := some .expired } now st).2) := by
    intro envx
    unfold refreshAccessToken
    rw [hfind]
    simp [hactive, hexp]
  refine ⟨by rw [hshape env], ?_, fun env2 => by rw [hshape env2, hshape env]⟩
  rw [hshape env]
  refine ⟨applySessionUpdate { status := some .expired } now s, ?_, rfl⟩
  have := find?_map_self st.sessions Session.id sid s (applySessionUpdate { status := some .expired } now)
    (fun _ => rfl) hfind
  exact this

/-- C5 witness: a concrete active session with a past refresh-token expiry,
including insensitivity to a changed provider oracle. -/
theorem claim_C5_witness :
    (refreshAccessToken baseEnv 5 "s1"
        { users := [], sessions := [mkSession .active 0 0 1000000000 none] }).1
      = .error .refreshTokenExpired ∧
    (∃ s2, SessionService.findById "s1"
        (refreshAccessToken baseEnv 5 "s1"
          { users := [], sessions := [mkSession .active 0 0 1000000000 none] }).2 = some s2 ∧
      s2.status = .expired) ∧
    refreshAccessToken { baseEnv with refreshResult := .error (.external "boom") } 5 "s1"
        { users := [], sessions := [mkSession .active 0 0 1000000000 none] }
      = refreshAccessToken baseEnv 5 "s1"
        { users := [], sessions := [mkSession .active 0 0 1000000000 none] } := by
  have h := claim_C5_refresh_token_expired baseEnv 5 "s1"
    { users := [], sessions := [mkSession .active 0 0 1000000000 none] }
    (mkSession .active 0 0 1000000000 none) (by decide) (by decide) (by decide)
  exact ⟨h.1, h.2.1, h.2.2 { baseEnv with refreshResult := .error (.external "boom") }⟩

/-! ## Claim C4 — provider refresh failure revokes the session -/

/-- C4: for every active session with an unexpired refresh token, if the
provider adapter's refresh call throws, refreshAccessToken marks the session
revoked with revokedAt set to the call instant and re-throws the adapter's
original error. -/
theorem claim_C4_refresh_failure_revokes (env : OAuthEnv) (now : Time) (sid : String)
    (st : Store) (s : Session) (rt : Bytes) (e : Err)
    (hfind : SessionService.findById sid st = some s)
    (hactive : s.status = .active)
    (hnexp : isRefreshTokenExpired now s.providerRefreshTokenExpiresAt = false)
    (hdec : decrypt s.providerRefreshToken s.providerRefreshTokenIv s.providerRefreshTokenTag
      env.encryptionKey = .ok rt)
    (hreg : env.registered s.provider = true)
    (hres : env.refreshResult = .error e) :
    (refreshAccessToken env now sid st).1 = .error e ∧
    ∃ s2, SessionService.findById sid (refreshAccessToken env now sid st).2 = some s2 ∧
      s2.status = .revoked ∧ s2.revokedAt = some now := by
  have hatt : refreshAttempt env now sid s st = (.error e, st) := by
    unfold refreshAttempt
    rw [hdec]
    simp [hreg, hres]
  have hshape : refreshAccessToken env now sid st =
      (.error e, (SessionService.updateById sid
        { status := some .revoked, revokedAt := some (some now) } now st).2) := by
    unfold refreshAccessToken
    rw [hfind]
    simp [hactive, hnexp, hatt]
  rw [hshape]
  refine ⟨rfl, applySessionUpdate { status := some .revoked, revokedAt := some (some now) } now s,
    ?_, rfl, rfl⟩
  exact find?_map_self st.sessions Session.id sid s
    (applySessionUpdate { status := some .revoked, revokedAt := some (some now) } now)
    (fun _ => rfl) hfind

/-- C4 witness: a concrete active session whose provider rejects the refresh
call ends up revoked with the original error re-thrown. -/
theorem claim_C4_witness :
    (refreshAccessToken { baseEnv with refreshResult := .error (.external "rejected") } 5 "s1"
        { users := [], sessions := [mkSession .active 0 1000000000 1000000000 none] }).1
      = .error (.external "rejected") ∧
    ∃ s2, SessionService.findById "s1"
        (refreshAccessToken { baseEnv with refreshResult := .error (.external "rejected") } 5 "s1"
          { users := [], sessions := [mkSession .active 0 1000000000 1000000000 none] }).2
        = some s2 ∧ s2.status = .revoked ∧ s2.revokedAt = some 5 := by
  exact claim_C4_refresh_failure_revokes
    { baseEnv with refreshResult := .error (.external "rejected") } 5 "s1"
    { users := [], sessions := [mkSession .active 0 1000000000 1000000000 none] }
    (mkSession .active 0 1000000000 1000000000 none) (ctrDec zeroKey [4] 0 [30, 40])
    (.external "rejected") (by decide) (by decide) (by decide) (by decide) (by decide) (by decide)

/-! ## Claim C7 — refresh-token expiry computation

The callback transaction gives the refresh token a fixed 90-day window, but
the rotation path of TokenService.refreshAccessToken computes the rotated
refresh token's expiry as `Date.now() + (expires_in || 90 days) * 1000`,
i.e. from the provider-reported access-token lifetime whenever it is
present. -/

/-- C7: at a concrete refresh of an active session where the provider
returns a rotated refresh token together with `expires_in = 3600`, the
refresh succeeds and stores a refresh-token expiry of now + 3600 s — the
access token's expiresIn — instead of the 90-day window; the callback
transaction, by contrast, does store the fixed 90-day expiry. -/
theorem claim_C7_refresh_expiry_uses_access_expiresIn :
    isOkE (refreshAccessToken baseEnv 5 "s1"
        { users := [], sessions := [mkSession .active 0 1000000000 1000000000 none] }).1 = true ∧
    (SessionService.findById "s1"
        (refreshAccessToken baseEnv 5 "s1"
          { users := [], sessions := [mkSession .active 0 1000000000 1000000000 none] }).2).map
        Session.providerRefreshTokenExpiresAt = some (5 + 3600 * 1000) ∧
    (5 + 3600 * 1000 : Time) ≠ 5 + 90 * 24 * 60 * 60 * 1000 ∧
    ((handleCallback baseEnv 5 "google" { users := [], sessions := [] }).2.sessions.map
        Session.providerRefreshTokenExpiresAt) = [5 + 90 * 24 * 60 * 60 * 1000] := by
  refine ⟨by decide, by decide, by decide, by decide⟩

/-! ## Claim C3 — expired and revoked are terminal -/

theorem refresh_not_active (env : OAuthEnv) (now : Time) (sid : String) (st : Store)
    (s : Session) (hfind : SessionService.findById sid st = some s)
    (hs : s.status ≠ .active) :
    refreshAccessToken env now sid st = (.error .sessionNotActive, st) := by
  unfold refreshAccessToken
  rw [hfind]
  simp [hs]

theorem getValid_not_active (env : OAuthEnv) (now : Time) (sid : String) (st : Store)
    (s : Session) (hfind : SessionService.findById sid st = some s)
    (hs : s.status ≠ .active) :
    getValidAccessToken env now sid st = (.error .sessionNotActive, st) := by
  unfold getValidAccessToken
  rw [hfind]
  simp [hs]

/-- Every store the refresh attempt can return is either untouched (on a
throw) or a single UPDATE of the target session. -/
theorem refreshAttempt_shape (env : OAuthEnv) (now : Time) (sid : String) (s : Session)
    (st : Store) :
    (∃ e, refreshAttempt env now sid s st = (.error e, st)) ∨
    (∃ r p, refreshAttempt env now sid s st = (.ok r, (SessionService.updateById sid p now st).2)) := by
  unfold refreshAttempt
  split
  · exact .inl ⟨_, rfl⟩
  · split
    · exact .inl ⟨_, rfl⟩
    · split
      · exact .inl ⟨_, rfl⟩
      · split
        · exact .inl ⟨_, rfl⟩
        · split
          · exact .inl ⟨_, rfl⟩
          · split
            · split
              · exact .inl ⟨_, rfl⟩
              · exact .inr ⟨_, _, rfl⟩
            · exact .inr ⟨_, _, rfl⟩

/-- Every store refreshAccessToken can return is the input store or a single
UPDATE of the target session (expired marking, revocation, or rotation). -/
theorem refresh_store_shape (env : OAuthEnv) (now : Time) (sid : String) (st : Store) :
    (refreshAccessToken env now sid st).2 = st ∨
    ∃ p, (refreshAccessToken env now sid st).2 = (SessionService.updateById sid p now st).2 := by
  unfold refreshAccessToken
  split
  · exact .inl rfl
  · split
    · exact .inl rfl
    · split
      · exact .inr ⟨_, rfl⟩
      · rcases refreshAttempt_shape env now sid _ st with ⟨e, he⟩ | ⟨r, p, hr⟩
        · rw [he]
          exact .inr ⟨_, rfl⟩
        · rw [hr]
          exact .inr ⟨p, rfl⟩

theorem getValid_store_shape (env : OAuthEnv) (now : Time) (sid : String) (st : Store) :
    (getValidAccessToken env now sid st).2 = st ∨
    (getValidAccessToken env now sid st).2 = (refreshAccessToken env now sid st).2 := by
  unfold getValidAccessToken
  split
  · exact .inl rfl
  · split
    · exact .inl rfl
    · split
      · split
        · exact .inl rfl
        · exact .inl rfl
      · rcases h : refreshAccessToken env now sid st with ⟨res, st2⟩
        cases res
        · exact .inr rfl
        · exact .inr rfl

/-- An UPDATE keyed to a different session id does not change what a lookup
for this session id returns. -/
theorem findById_after_update_ne (sid sid2 : String) (p : SessionUpdate) (now : Time)
    (st : Store) (hsid : sid ≠ sid2) :
    SessionService.findById sid (SessionService.updateById sid2 p now st).2
      = SessionService.findById sid st := by
  unfold SessionService.findById SessionService.updateById
  exact find?_map_ne st.sessions Session.id sid sid2 (applySessionUpdate p now)
    (fun _ => rfl) hsid

/-- One token-lifecycle call never touches a session that is not active. -/
theorem tokenOp_preserves (op : TokenOp) (st : Store) (sid : String) (s : Session)
    (hfind : SessionService.findById sid st = some s) (hs : s.status ≠ .active) :
    SessionService.findById sid (runTokenOp op st) = some s := by
  have hrefresh : ∀ env now sid2,
      SessionService.findById sid (refreshAccessToken env now sid2 st).2 = some s := by
    intro env now sid2
    by_cases hsid : sid = sid2
    · subst hsid
      rw [refresh_not_active env now sid st s hfind hs]
      exact hfind
    · rcases refresh_store_shape env now sid2 st with h | ⟨p, h⟩
      · rw [h]
        exact hfind
      · rw [h, findById_after_update_ne sid sid2 p now st hsid]
        exact hfind
  cases op with
  | refresh env now sid2 => exact hrefresh env now sid2
  | getValid env now sid2 =>
    show SessionService.findById sid (getValidAccessToken env now sid2 st).2 = some s
    rcases getValid_store_shape env now sid2 st with h | h
    · rw [h]
      exact hfind
    · rw [h]
      exact hrefresh env now sid2

/-- C3: a session whose status is expired or revoked is never altered by any
sequence of getValidAccessToken / refreshAccessToken calls — its stored row,
in particular its status, is exactly the same afterwards, so it never
becomes active again. -/
theorem claim_C3_terminal_states (st : Store) (sid : String) (s : Session)
    (ops : List TokenOp) (hfind : SessionService.findById sid st = some s)
    (hterm : s.status = .expired ∨ s.status = .revoked) :
    SessionService.findById sid (runTokenOps ops st) = some s ∧ s.status ≠ .active := by
  have hs : s.status ≠ .active := by
    rcases hterm with h | h <;> simp [h]
  refine ⟨?_, hs⟩
  clear hterm
  induction ops generalizing st with
  | nil => exact hfind
  | cons op ops ih =>
    show SessionService.findById sid (runTokenOps ops (runTokenOp op st)) = some s
    exact ih (runTokenOp op st) (tokenOp_preserves op st sid s hfind hs)

/-- C3 witness: a concrete revoked session survives a refresh call followed
by a getValidAccessToken call unchanged. -/
theorem claim_C3_witness :
    SessionService.findById "s1"
        (runTokenOps [.refresh baseEnv 5 "s1", .getValid baseEnv 6 "s1"]
          { users := [], sessions := [mkSession .revoked 0 0 1000000000 (some 3)] })
      = some (mkSession .revoked 0 0 1000000000 (some 3)) ∧
    (mkSession .revoked 0 0 1000000000 (some 3)).status ≠ .active := by
  exact claim_C3_terminal_states
    { users := [], sessions := [mkSession .revoked 0 0 1000000000 (some 3)] } "s1"
    (mkSession .revoked 0 0 1000000000 (some 3))
    [.refresh baseEnv 5 "s1", .getValid baseEnv 6 "s1"] (by decide) (by decide)

/-! ## Claim C1 — callback transaction atomicity -/

/-- A failing handleCallback leaves the store exactly as it was: every write
happens inside the transaction, and the transaction rolls back on error. -/
theorem handleCallback_error_store (env : OAuthEnv) (now : Time) (prov : String) (st : Store) :
    ∀ e st2, handleCallback env now prov st = (.error e, st2) → st2 = st := by
  intro e st2 h
  unfold handleCallback dbTransaction at h
  repeat' split at h
  all_goals try (injection h with h1 h2; exact h2.symm)
  all_goals injection h with h1 h2; exact Except.noConfusion h1

/-- With the session-insert fault armed, the transaction body always
throws: whichever of its steps runs last, none can reach a successful
result past the failed insert. -/
theorem execTx_fault_errors (env : OAuthEnv) (now : Time) (prov : String) (tok : TokenResponse)
    (rt : String) (ui : UserInfo) (st : Store) (hf : env.sessionInsertFault = true) :
    isOkE (executeOAuthCallbackTransaction env now prov tok rt ui st).1 = false := by
  rcases hup : UsersService.upsertByProviderAccountId true env.freshUserId now
      (callbackUserPayload ui) st with e | ⟨user, st1⟩
  · simp [executeOAuthCallbackTransaction, hup, isOkE]
  · rcases hA : encrypt (strToBytes tok.access_token) env.encryptionKey env.ivAccess
        with eA | encA
    · simp [executeOAuthCallbackTransaction, hup, hA, isOkE]
    · rcases hR : encrypt (strToBytes rt) env.encryptionKey env.ivRefresh with eR | encR
      · simp [executeOAuthCallbackTransaction, hup, hA, hR, isOkE]
      · simp [executeOAuthCallbackTransaction, hup, hA, hR, SessionService.create, hf, isOkE]

/-- With the session-insert fault armed, handleCallback always fails. -/
theorem handleCallback_fault_errors (env : OAuthEnv) (now : Time) (prov : String) (st : Store)
    (hf : env.sessionInsertFault = true) :
    isOkE (handleCallback env now prov st).1 = false := by
  unfold handleCallback
  by_cases hreg : (!env.registered prov) = true
  · simp [hreg, isOkE]
  · rw [if_neg hreg]
    rcases hex : env.exchangeResult with e | tok
    · simp [isOkE]
    · simp only []
      by_cases hat : tok.access_token = ""
      · simp [hat, isOkE]
      · rw [if_neg hat]
        rcases hrt : jsTruthy tok.refresh_token with _ | rt
        · simp [isOkE]
        · rcases hui : env.userInfoResult with e | ui
          · simp [isOkE]
          · simp only []
            by_cases hid : ui.id = "" ∨ ui.email = ""
            · simp [hid, isOkE]
            · rw [if_neg hid]
              unfold dbTransaction
              rcases hbody : executeOAuthCallbackTransaction env now prov tok rt ui st
                with ⟨res, st2⟩
              have hfa := execTx_fault_errors env now prov tok rt ui st hf
              rw [hbody] at hfa
              cases res with
              | error e => rfl
              | ok a => exact absurd hfa (by simp [isOkE])

/-- C1: for every execution of OAuthService.handleCallback in which any step
after the code exchange fails — including a forced failure of the session
insert after the user upsert — the persistence transaction rolls back in its
entirety: the store afterwards equals the store before, so neither the
upserted user nor a session row is observable. -/
theorem claim_C1_callback_atomicity (env : OAuthEnv) (now : Time) (prov : String) (st : Store) :
    (isOkE (handleCallback env now prov st).1 = false →
      (handleCallback env now prov st).2 = st) ∧
    (env.sessionInsertFault = true → isOkE (handleCallback env now prov st).1 = false) := by
  constructor
  · intro h
    rcases hp : handleCallback env now prov st with ⟨res, st2⟩
    cases res with
    | ok a =>
      rw [hp] at h
      exact absurd h (by simp [isOkE])
    | error e =>
      exact handleCallback_error_store env now prov st e st2 hp
  · exact handleCallback_fault_errors env now prov st

/-- C1 witness: with the session insert forced to fail after the user
upsert, a concrete callback run fails and leaves the empty store empty — no
orphaned user row. -/
theorem claim_C1_witness :
    isOkE (handleCallback { baseEnv with sessionInsertFault := true } 5 "google"
        { users := [], sessions := [] }).1 = false ∧
    (handleCallback { baseEnv with sessionInsertFault := true } 5 "google"
        { users := [], sessions := [] }).2 = { users := [], sessions := [] } := by
  have h := claim_C1_callback_atomicity { baseEnv with sessionInsertFault := true } 5 "google"
    { users := [], sessions := [] }
  have herr := h.2 (by decide)
  exact ⟨herr, h.1 herr⟩

/-! ## Claim C9 — unique-constraint violation during the user upsert

The upsert's catch logs and re-throws; nothing in the callback path retries,
and the HTTP handler's final catch maps the propagated error to a generic
500 Internal Server Error. -/

/-- A store whose only user row is soft-deleted but still holds the sample
provider-account-id: the upsert's two lookups (which exclude deleted rows)
miss, and the insert then violates the total unique index. -/
def c9DeletedUser : User :=
  { id := "u0", email := "b@y.com", firstName := "B", lastName := none, avatar := none,
    providerAccountId := "g-123", createdAt := some 0, updatedAt := none, deletedAt := some 1 }

def c9Store : Store :=
  { users := [c9DeletedUser], sessions := [] }

/-- C9 counterexample: at a concrete callback whose user insert raises a
unique-constraint violation, the violation is not retried and is surfaced to
the client as the generic 500 Internal Server Error — refuting the claim
that it is caught, retried once, and not surfaced as a generic failure. -/
theorem claim_C9_counterexample :
    (handleCallback baseEnv 5 "google" c9Store).1 = .error .uniqueViolation ∧
    (getOauthCallbackHandler baseEnv (fun _ => some (some "xyz")) (fun _ => "a") (fun _ => "r")
      5 "google"
      { code := some "code-abc", error := none, error_description := none, state := some "st" }
      c9Store).1 = .internalError := by
  exact ⟨by decide, by decide⟩

/-- C9 amended: a unique-constraint violation during the user upsert
propagates out of handleCallback without any retry, and the callback handler
surfaces it to the client as a generic 500 Internal Server Error. -/
theorem claim_C9_unique_violation_surfaces_as_500 (env : OAuthEnv)
    (verifyState : String → Option (Option String)) (signA signR : JwtPayload → String)
    (now : Time) (prov : String) (q : CallbackQuery) (st st2 : Store) (c stt : String)
    (ds : Option String) (d : String)
    (hreg : env.registered prov = true)
    (hq1 : jsTruthy q.error = none)
    (hq2 : jsTruthy q.code = some c)
    (hq3 : jsTruthy q.state = some stt)
    (hvs : verifyState stt = some ds)
    (hds : jsTruthy ds = some d)
    (hcb : handleCallback env now prov st = (.error .uniqueViolation, st2)) :
    getOauthCallbackHandler env verifyState signA signR now prov q st = (.internalError, st2) := by
  unfold getOauthCallbackHandler
  rw [hreg]
  simp only [Bool.not_true, Bool.false_eq_true, if_false, hq1, hq2, hq3, hvs, hds, hcb]

/-- C9 amended-claim witness at the concrete conflicting store. -/
theorem claim_C9_witness :
    getOauthCallbackHandler baseEnv (fun _ => some (some "xyz")) (fun _ => "a") (fun _ => "r")
      5 "google"
      { code := some "code-abc", error := none, error_description := none, state := some "st" }
      c9Store = (.internalError, c9Store) := by
  exact claim_C9_unique_violation_surfaces_as_500 baseEnv (fun _ => some (some "xyz"))
    (fun _ => "a") (fun _ => "r") 5 "google"
    { code := some "code-abc", error := none, error_description := none, state := some "st" }
    c9Store c9Store "code-abc" "st" (some "xyz") "xyz" (by decide) (by decide) (by decide)
    (by decide) (by decide) (by decide) (by decide)

/-! ## Claim C8 — session-resolution middleware on dead sessions -/

theorem jsTruthy_eq_some {o : Option String} {t : String} (h : jsTruthy o = some t) :
    o = some t ∧ t ≠ "" := by
  cases o with
  | none => simp [jsTruthy] at h
  | some s =>
    by_cases hs : s = ""
    · simp [jsTruthy, hs] at h
    · simp [jsTruthy, hs] at h
      subst h
      exact ⟨rfl, hs⟩

theorem jsTruthy_some_of_ne {t : String} (h : t ≠ "") : jsTruthy (some t) = some t := by
  simp [jsTruthy, h]

def sampleUser : User :=
  { id := "u1", email := "a@x.com", firstName := "A", lastName := some "", avatar := none,
    providerAccountId := "g-123", createdAt := some 0, updatedAt := none, deletedAt := none }

/-- Verifies the sample bearer token to the sample user/session pair. -/
def c8Verify : String → Option JwtPayload := fun t =>
  if t = "tok" then some { userId := "u1", sessionId := "s1" } else none

def c8Request : Request :=
  { cookies := [("access_token", "tok"), ("accessToken", "tok")], authorizationHeader := none }

def c8Store : Store :=
  { users := [sampleUser], sessions := [mkSession .revoked 0 0 1000000000 (some 3)] }

/-- C8 counterexample: a verifying bearer credential whose session is
revoked makes the first middleware variant reject the request with 401
instead of letting it proceed unauthenticated. -/
theorem claim_C8_counterexample :
    getUserMiddlewareV1 c8Verify 5 c8Request c8Store = .unauthorized ∧
    MwOutcome.unauthorized ≠ .next none none := by
  exact ⟨by decide, by decide⟩

/-- C8 amended: when the bearer credential verifies, the first middleware
variant rejects the request with 401 whenever the referenced session is
missing, revoked, or past its overall expiry, while the second variant
always lets the request proceed — attaching nothing for a missing session,
but attaching the session (and the user) even when the session is revoked
or past expiry. -/
theorem claim_C8_dead_session_middleware (verify : String → Option JwtPayload) (now : Time)
    (req : Request) (st : Store) (tok : String) (p : JwtPayload)
    (hc1 : jsTruthy (getCookie "access_token" req) = some tok)
    (hc2 : jsTruthy (getCookie "accessToken" req) = some tok)
    (hv : verify tok = some p) (hu : p.userId ≠ "") (hs : p.sessionId ≠ "") :
    (∀ s, SessionService.findById p.sessionId st = some s →
      s.revokedAt ≠ none ∨ s.expiresAt < now →
      getUserMiddlewareV1 verify now req st = .unauthorized) ∧
    (SessionService.findById p.sessionId st = none →
      getUserMiddlewareV1 verify now req st = .unauthorized) ∧
    getUserMiddlewareV2 verify req st =
      .next (UsersService.findById p.userId st) (SessionService.findById p.sessionId st) := by
  have htok : tok ≠ "" := (jsTruthy_eq_some hc1).2
  have hout : jsTruthy (some tok) = some tok := jsTruthy_some_of_ne htok
  refine ⟨?_, ?_, ?_⟩
  · intro s hfind hdead
    unfold getUserMiddlewareV1
    rw [hc1]
    simp only [Option.orElse, hout, hv, hfind]
    rw [if_neg (not_or.mpr ⟨hu, hs⟩), if_pos hdead]
  · intro hfind
    unfold getUserMiddlewareV1
    rw [hc1]
    simp only [Option.orElse, hout, hv, hfind]
    rw [if_neg (not_or.mpr ⟨hu, hs⟩)]
  · unfold getUserMiddlewareV2
    simp only [hc2, Option.orElse, hout, hv]
    rw [if_neg (not_or.mpr ⟨hu, hs⟩)]

/-- C8 amended-claim witness: with a revoked concrete session, variant one
rejects with 401 and variant two proceeds, attaching the revoked session and
its user. -/
theorem claim_C8_witness :
    getUserMiddlewareV1 c8Verify 5 c8Request c8Store = .unauthorized ∧
    getUserMiddlewareV2 c8Verify c8Request c8Store =
      .next (some sampleUser) (some (mkSession .revoked 0 0 1000000000 (some 3))) := by
  have h := claim_C8_dead_session_middleware c8Verify 5 c8Request c8Store "tok"
    { userId := "u1", sessionId := "s1" } (by decide) (by decide) (by decide) (by decide)
    (by decide)
  refine ⟨h.1 (mkSession .revoked 0 0 1000000000 (some 3)) (by decide) (.inl (by decide)), ?_⟩
  rw [h.2.2]
  decide

/-! ## Claim C2 — idempotent identity linking -/

/-- After a successful upsert, the first non-deleted user carrying the
payload's provider-account-id is exactly the returned user's id — whichever
of the three branches ran. -/
theorem upsert_ok_find (hasTx : Bool) (fid : String) (now : Time) (p : NewUser) (st : Store)
    (u : User) (st' : Store)
    (h : UsersService.upsertByProviderAccountId hasTx fid now p st = .ok (u, st')) :
    ∃ w, st'.users.find? (pidQual p.providerAccountId) = some w ∧ w.id = u.id := by
  unfold UsersService.upsertByProviderAccountId at h
  by_cases htx : (!hasTx) = true
  · rw [if_pos htx] at h
    exact Except.noConfusion h
  · rw [if_neg htx] at h
    rcases hfp : UsersService.findByProviderAccountId p.providerAccountId st with _ | u_f
    · rw [hfp] at h
      simp only [] at h
      have hfpL : st.users.find? (pidQual p.providerAccountId) = none := hfp
      rcases hfe : UsersService.findByEmail p.email st with _ | uE
      · -- create branch
        rw [hfe] at h
        simp only [] at h
        unfold UsersService.create at h
        by_cases hany :
            (st.users.any fun v =>
              decide (v.email = p.email ∨ v.providerAccountId = p.providerAccountId)) = true
        · rw [if_pos hany] at h
          exact Except.noConfusion h
        · rw [if_neg hany] at h
          injection h with h1
          injection h1 with hu hst
          subst hu
          subst hst
          refine find?_eq_some_key_of_all _ _ User.id _ ?_ ?_
          · intro a ha hq
            rcases List.mem_append.mp ha with hmem | hmem
            · exfalso
              have hno : ∀ x ∈ st.users,
                  ¬(x.email = p.email ∨ x.providerAccountId = p.providerAccountId) := by
                intro x hx
                have := List.any_eq_false.mp (Bool.not_eq_true _ ▸ hany) x hx
                simpa using this
              have hq2 := of_decide_eq_true hq
              exact hno a hmem (Or.inr hq2.1)
            · rw [List.mem_singleton.mp hmem]
          · refine ⟨_, List.mem_append_right _ (List.mem_singleton.mpr rfl), ?_⟩
            simp [pidQual]
      · -- email-update branch
        rw [hfe] at h
        simp only [] at h
        have hfeL : st.users.find? (fun v => decide (v.email = p.email ∧ v.deletedAt = none))
            = some uE := hfe
        unfold UsersService.updateById at h
        rcases hfu : (st.users.map fun v => if v.id = uE.id then applyUserUpdate p now v else v).find?
            (fun v => decide (v.id = uE.id)) with _ | u2
        · rw [hfu] at h
          simp only [] at h
          exact Except.noConfusion h
        · rw [hfu] at h
          simp only [] at h
          injection h with h1
          injection h1 with hu hst
          have hid2p := List.find?_some hfu
          have hid2 : u2.id = uE.id := of_decide_eq_true hid2p
          have hqEp := List.find?_some hfeL
          have hqE : uE.email = p.email ∧ uE.deletedAt = none := of_decide_eq_true hqEp
          have hnone := List.find?_eq_none.mp hfpL
          refine (find?_eq_some_key_of_all
            (st.users.map fun v => if v.id = uE.id then applyUserUpdate p now v else v)
            (pidQual p.providerAccountId) User.id uE.id ?_ ?_).imp ?_
          · intro a ha hq
            rcases List.mem_map.mp ha with ⟨v, hv, hva⟩
            by_cases hvid : v.id = uE.id
            · rw [← hva, if_pos hvid]
              exact hvid
            · rw [if_neg hvid] at hva
              exfalso
              exact hnone v hv (hva ▸ hq)
          · refine ⟨applyUserUpdate p now uE, ?_, ?_⟩
            · exact List.mem_map.mpr ⟨uE, List.mem_of_find?_eq_some hfeL, by rw [if_pos rfl]⟩
            · simp [pidQual, applyUserUpdate, hqE.2]
          · intro w hw
            rw [← hst]
            exact ⟨hw.1, by rw [hw.2, ← hu, hid2]⟩
    · -- provider-account-id update branch
      rw [hfp] at h
      simp only [] at h
      have hfpL : st.users.find? (pidQual p.providerAccountId) = some u_f := hfp
      unfold UsersService.updateById at h
      rcases hfu : (st.users.map fun v => if v.id = u_f.id then applyUserUpdate p now v else v).find?
          (fun v => decide (v.id = u_f.id)) with _ | u2
      · rw [hfu] at h
        simp only [] at h
        exact Except.noConfusion h
      · rw [hfu] at h
        simp only [] at h
        injection h with h1
        injection h1 with hu hst
        have hid2p := List.find?_some hfu
        have hid2 : u2.id = u_f.id := of_decide_eq_true hid2p
        have hqfp := List.find?_some hfpL
        have hqf : u_f.providerAccountId = p.providerAccountId ∧ u_f.deletedAt = none :=
          of_decide_eq_true hqfp
        obtain ⟨b, hb, hbid⟩ := find?_map_found st.users (pidQual p.providerAccountId) User.id
          (applyUserUpdate p now) u_f hfpL (fun _ => rfl)
          (by simp [pidQual, applyUserUpdate, hqf.2])
        refine ⟨b, ?_, ?_⟩
        · rw [← hst]
          exact hb
        · rw [hbid, ← hu, hid2]

/-- When the provider-account-id lookup already finds a user, the upsert
updates in place: the returned user keeps the found user's id and the user
table does not grow. -/
theorem upsert_found_update (hasTx : Bool) (fid : String) (now : Time) (p : NewUser) (st : Store)
    (u : User) (st' : Store) (w : User)
    (hw : UsersService.findByProviderAccountId p.providerAccountId st = some w)
    (h : UsersService.upsertByProviderAccountId hasTx fid now p st = .ok (u, st')) :
    u.id = w.id ∧ st'.users.length = st.users.length := by
  unfold UsersService.upsertByProviderAccountId at h
  by_cases htx : (!hasTx) = true
  · rw [if_pos htx] at h
    exact Except.noConfusion h
  · rw [if_neg htx, hw] at h
    simp only [] at h
    unfold UsersService.updateById at h
    rcases hfu : (st.users.map fun v => if v.id = w.id then applyUserUpdate p now v else v).find?
        (fun v => decide (v.id = w.id)) with _ | u2
    · rw [hfu] at h
      simp only [] at h
      exact Except.noConfusion h
    · rw [hfu] at h
      simp only [] at h
      injection h with h1
      injection h1 with hu hst
      have hid2p := List.find?_some hfu
      have hid2 : u2.id = w.id := of_decide_eq_true hid2p
      refine ⟨by rw [← hu, hid2], ?_⟩
      rw [← hst]
      simp

/-- A successful session insert does not touch the user table. -/
theorem session_create_users (fid : String) (now : Time) (fault : Bool) (p : NewSession)
    (s : Store) (t : Session) (s2 : Store)
    (h : SessionService.create fid now fault p s = .ok (t, s2)) : s2.users = s.users := by
  unfold SessionService.create at h
  by_cases hf : fault = true
  · rw [if_pos hf] at h
    exact Except.noConfusion h
  · rw [if_neg hf] at h
    by_cases hany :
        (s.sessions.any fun q => decide (q.providerRefreshToken = p.providerRefreshToken)) = true
    · rw [if_pos hany] at h
      exact Except.noConfusion h
    · rw [if_neg hany] at h
      injection h with h1
      injection h1 with ht hs2
      rw [← hs2]

/-- A successful callback transaction performs exactly one upsert of the
provider-derived payload, and the final user table is that upsert's. -/
theorem execTx_ok_users (env : OAuthEnv) (now : Time) (prov : String) (tok : TokenResponse)
    (rt : String) (ui : UserInfo) (st : Store) (r : OAuthCallbackResult) (st' : Store)
    (h : executeOAuthCallbackTransaction env now prov tok rt ui st = (.ok r, st')) :
    ∃ stU, UsersService.upsertByProviderAccountId true env.freshUserId now
        (callbackUserPayload ui) st = .ok (r.user, stU) ∧ st'.users = stU.users := by
  unfold executeOAuthCallbackTransaction at h
  rcases hup : UsersService.upsertByProviderAccountId true env.freshUserId now
      (callbackUserPayload ui) st with e | ⟨user, st1⟩
  · rw [hup] at h
    simp only [] at h
    injection h with h1 h2
    exact Except.noConfusion h1
  · rw [hup] at h
    simp only [] at h
    rcases hA : encrypt (strToBytes tok.access_token) env.encryptionKey env.ivAccess
        with eA | encA
    · rw [hA] at h
      simp only [] at h
      injection h with h1 h2
      exact Except.noConfusion h1
    · rw [hA] at h
      simp only [] at h
      rcases hR : encrypt (strToBytes rt) env.encryptionKey env.ivRefresh with eR | encR
      · rw [hR] at h
        simp only [] at h
        injection h with h1 h2
        exact Except.noConfusion h1
      · rw [hR] at h
        simp only [] at h
        split at h
        · rename_i e heq
          injection h with h1 h2
          exact Except.noConfusion h1
        · rename_i sess st2 heq
          injection h with h1 h2
          injection h1 with h3
          refine ⟨st1, ?_, ?_⟩
          · have huser : r.user = user := by rw [← h3]
            rw [huser]
          · rw [← h2]
            exact session_create_users _ _ _ _ _ _ _ heq

/-- A successful handleCallback run performs exactly one upsert of the
payload derived from the fetched user info, and the final user table is that
upsert's. -/
theorem handleCallback_ok_users (env : OAuthEnv) (now : Time) (prov : String) (st : Store)
    (r : OAuthCallbackResult) (st' : Store)
    (h : handleCallback env now prov st = (.ok r, st')) :
    ∃ ui stU, env.userInfoResult = .ok ui ∧
      UsersService.upsertByProviderAccountId true env.freshUserId now
        (callbackUserPayload ui) st = .ok (r.user, stU) ∧
      st'.users = stU.users := by
  unfold handleCallback at h
  by_cases hreg : (!env.registered prov) = true
  · rw [if_pos hreg] at h
    injection h with h1 h2
    exact Except.noConfusion h1
  · rw [if_neg hreg] at h
    rcases hex : env.exchangeResult with e | tok
    · rw [hex] at h
      simp only [] at h
      injection h with h1 h2
      exact Except.noConfusion h1
    · rw [hex] at h
      simp only [] at h
      by_cases hat : tok.access_token = ""
      · rw [if_pos hat] at h
        injection h with h1 h2
        exact Except.noConfusion h1
      · rw [if_neg hat] at h
        rcases hrt : jsTruthy tok.refresh_token with _ | rt
        · rw [hrt] at h
          simp only [] at h
          injection h with h1 h2
          exact Except.noConfusion h1
        · rw [hrt] at h
          simp only [] at h
          rcases hui : env.userInfoResult with e | ui
          · rw [hui] at h
            simp only [] at h
            injection h with h1 h2
            exact Except.noConfusion h1
          · rw [hui] at h
            simp only [] at h
            by_cases hid : ui.id = "" ∨ ui.email = ""
            · rw [if_pos hid] at h
              injection h with h1 h2
              exact Except.noConfusion h1
            · rw [if_neg hid] at h
              unfold dbTransaction at h
              split at h
              · rename_i a st2 heq
                injection h with h1 h2
                injection h1 with h3
                subst h3
                subst h2
                obtain ⟨stU, hupU, husers⟩ :=
                  execTx_ok_users env now prov tok rt ui st a st2 heq
                exact ⟨ui, stU, rfl, hupU, husers⟩
              · rename_i e heq
                injection h with h1 h2
                exact Except.noConfusion h1

/-- C2: for every starting store and every pair of successful handleCallback
runs whose provider-reported user info carries the same provider-account-id,
the second run returns the same user id as the first, and the number of user
rows does not change on the second run — the three-way lookup never creates
a duplicate user. -/
theorem claim_C2_idempotent_identity (env1 env2 : OAuthEnv) (now1 now2 : Time)
    (prov1 prov2 : String) (st st1 st2 : Store) (r1 r2 : OAuthCallbackResult)
    (ui1 ui2 : UserInfo)
    (h1 : handleCallback env1 now1 prov1 st = (.ok r1, st1))
    (h2 : handleCallback env2 now2 prov2 st1 = (.ok r2, st2))
    (hui1 : env1.userInfoResult = .ok ui1) (hui2 : env2.userInfoResult = .ok ui2)
    (hid : ui2.id = ui1.id) :
    r2.user.id = r1.user.id ∧ st2.users.length = st1.users.length := by
  obtain ⟨ui1x, stU1, hui1x, hup1, husers1⟩ :=
    handleCallback_ok_users env1 now1 prov1 st r1 st1 h1
  rw [hui1] at hui1x
  injection hui1x with he1
  subst he1
  obtain ⟨ui2x, stU2, hui2x, hup2, husers2⟩ :=
    handleCallback_ok_users env2 now2 prov2 st1 r2 st2 h2
  rw [hui2] at hui2x
  injection hui2x with he2
  subst he2
  obtain ⟨w, hw, hwid⟩ := upsert_ok_find true env1.freshUserId now1
    (callbackUserPayload ui1) st r1.user stU1 hup1
  have hw1 : st1.users.find? (pidQual ui1.id) = some w := by
    rw [husers1]
    exact hw
  have hfind2 : UsersService.findByProviderAccountId
      (callbackUserPayload ui2).providerAccountId st1 = some w := by
    show st1.users.find? (pidQual ui2.id) = some w
    rw [hid]
    exact hw1
  obtain ⟨hid2, hlen2⟩ := upsert_found_update true env2.freshUserId now2
    (callbackUserPayload ui2) st1 r2.user stU2 w hfind2 hup2
  constructor
  · rw [hid2, hwid]
  · rw [husers2]
    exact hlen2

def c2ExchangeTok2 : TokenResponse :=
  { access_token := "at3", refresh_token := some "rt3", expires_in := some 3600, scope := none }

/-- Second-login user info: same provider-account-id, changed email. -/
def c2UserInfo2 : UserInfo :=
  { id := "g-123", email := "b@y.com", given_name := some "A2", family_name := none,
    name := none, picture := none }

def c2Env2 : OAuthEnv :=
  { encryptionKey := zeroKey, registered := fun _ => true,
    exchangeResult := .ok c2ExchangeTok2, userInfoResult := .ok c2UserInfo2,
    refreshResult := .ok sampleRefreshTok, ivAccess := [11], ivRefresh := [12],
    freshUserId := "u2", freshSessionId := "s2", sessionInsertFault := false,
    defaultScopes := ["openid", "email"] }

def c2Run1 : Except Err OAuthCallbackResult × Store :=
  handleCallback baseEnv 5 "google" { users := [], sessions := [] }

def c2Run2 : Except Err OAuthCallbackResult × Store :=
  handleCallback c2Env2 6 "google" c2Run1.2

/-- C2 witness: two concrete successful callback runs for the same
provider-account-id yield the same user id and the second run leaves the
user count unchanged. -/
theorem claim_C2_witness :
    (∃ r1 r2, c2Run1.1 = .ok r1 ∧ c2Run2.1 = .ok r2 ∧ r2.user.id = r1.user.id) ∧
    c2Run2.2.users.length = c2Run1.2.users.length := by
  have hok1 : isOkE c2Run1.1 = true := by decide
  have hok2 : isOkE c2Run2.1 = true := by decide
  rcases hr1 : c2Run1.1 with e1 | r1
  · rw [hr1] at hok1
    exact absurd hok1 (by simp [isOkE])
  · rcases hr2 : c2Run2.1 with e2 | r2
    · rw [hr2] at hok2
      exact absurd hok2 (by simp [isOkE])
    · have h1 : handleCallback baseEnv 5 "google" { users := [], sessions := [] }
          = (.ok r1, c2Run1.2) := by
        rw [← hr1]
        rfl
      have h2 : handleCallback c2Env2 6 "google" c2Run1.2 = (.ok r2, c2Run2.2) := by
        rw [← hr2]
        rfl
      have hm := claim_C2_idempotent_identity baseEnv c2Env2 5 6 "google" "google"
        { users := [], sessions := [] } c2Run1.2 c2Run2.2 r1 r2 sampleUserInfo c2UserInfo2
        h1 h2 rfl rfl rfl
      exact ⟨⟨r1, r2, rfl, rfl, hm.1⟩, hm.2⟩

end Backend
